import Mathlib

/-!
Verification development for the Aliyun CDT traffic tracker / ECS control
worker (multi-region variant of `src/index.js`).

The worker is embedded shallowly:

* JSON scalar fields read from provider responses are modelled by `JField`
  (absent / null / finite number / boolean), enough to express the
  truthiness tests and numeric coercions the code performs on them.
* Remote endpoints are modelled by an `Oracle` supplying, per operation,
  either a transport failure (`HttpErr`, the non-2xx case of
  `requestAliyun`) or the fields of the parsed JSON body that the code
  actually reads.
* Every invocation of `requestAliyun` — i.e. every signed HTTP request —
  is recorded as an `ApiCall` in an explicit trace, so that theorems can
  speak about which network calls a run issues.
* JavaScript exceptions are modelled with `Except` / `Option RunErr`
  values, caught exactly where the source has `try`/`catch`.
* The request-signing subsystem (`sign`, `percentEncode`, `hmacSha1`,
  base64) is embedded as executable functions over UTF-8 byte lists, with
  machine words as `Nat` reduced `% 2^32` where the source relies on
  32-bit overflow.
-/

/-- A scalar JSON field value as the worker's duck-typed parsing sees it:
the field can be absent (`undefined`), `null`, a finite JSON number, or a
boolean.  (JSON numbers are finite; `NaN` never appears in a parsed
body.) -/
inductive JField
  | undef
  | null
  | num (q : ℚ)
  | bool (b : Bool)
deriving DecidableEq

/-- Models `(detail.Traffic || 0)` followed by the numeric coercion JS
applies in `traffic / (1024 ** 3)`: falsy values (absent, `null`, `0`,
`false`) are replaced by `0` by the `||`; a truthy value is coerced by the
division (`ToNumber`), so `true` contributes `1` and a non-zero number
contributes itself. -/
def jsTrafficBytes : JField → ℚ
  | JField.undef => 0
  | JField.null => 0
  | JField.num q => q
  | JField.bool b => if b then 1 else 0

/-- One record of `result.TrafficDetails` with the two fields the code
reads: `BusinessRegionId` (absent ↦ `none`) and `Traffic`. -/
structure TrafficDetail where
  businessRegionId : Option String
  traffic : JField
deriving DecidableEq

/-- One record of `result.Instances.Instance` with the single field the
code reads, `Status`. -/
structure EcsInstance where
  status : String
deriving DecidableEq

/-- The non-2xx outcome of a `fetch` in `requestAliyun`: the code throws
`Aliyun API Error: ${status} ${statusText} - ${text}`; we carry the HTTP
status and the diagnostic text. -/
structure HttpErr where
  status : Nat
  body : String
deriving DecidableEq

/-- One signed request issued through `requestAliyun`, identified by its
`Action` and the identifiers interpolated into its parameters/domain. -/
inductive ApiCall
  | listTraffic
  | describeInstances (regionId instanceId : String)
  | startInstances (regionId instanceId : String)
  | stopInstances (regionId instanceId : String)
deriving DecidableEq

/-- The remote side of one run: for each operation, either the transport
failure `requestAliyun` would throw, or the fields of the parsed response
body that the worker reads.  `describe`, `start` and `stop` are keyed by
`(regionId, instanceId)` exactly as the helpers interpolate them. -/
structure Oracle where
  traffic : Except HttpErr (List TrafficDetail)
  describe : String → String → Except HttpErr (List EcsInstance)
  start : String → String → Except HttpErr Unit
  stop : String → String → Except HttpErr Unit

/-- The exceptions that can escape the per-instance helpers into
`handleSchedule`'s `catch`: a transport error thrown by `requestAliyun`,
or the `Instance ${instanceId} not found in ${regionId}` error thrown by
`getEcsStatus`. -/
inductive RunErr
  | transport (e : HttpErr)
  | notFound (instanceId regionId : String)
deriving DecidableEq

/-- JavaScript truthiness of an optional string: `undefined` and the
empty string are falsy, every other string is truthy. -/
def truthyStr : Option String → Bool
  | none => false
  | some s => !(s == "")

/-- The value of the config's `threshold` field as far as
`parseFloat(inst.threshold)` is concerned: `num q` is a JSON number (and
a finite numeric string behaves the same way), `nonNum` is any value
whose `parseFloat` image is `NaN` (absent field, non-numeric string).  -/
inductive ThrVal
  | num (q : ℚ)
  | nonNum
deriving DecidableEq

/-- Model of `parseFloat(inst.threshold)`, with `none` standing for `NaN`. -/
def parseFloatThr : ThrVal → Option ℚ
  | ThrVal.num q => some q
  | ThrVal.nonNum => none

/-- One entry of the parsed `ECS_INSTANCES_JSON` array with the three
fields the loop reads: `inst.region`, `inst.id`, `inst.threshold`. -/
structure InstCfg where
  region : Option String
  id : Option String
  threshold : ThrVal
deriving DecidableEq

/-- Outcome of `JSON.parse(ECS_INSTANCES_JSON)` on a truthy config
string: either the parse throws (`malformed`, the `catch` at line
264), or it yields an array of config objects. -/
inductive ConfigJson
  | malformed
  | arr (cfgs : List InstCfg)
deriving DecidableEq

/-- The environment bindings `handleSchedule` destructures.  A field is
`none` when the variable is absent; `ecsInstancesJson = none` models an
absent (or empty, hence falsy) `ECS_INSTANCES_JSON`, and `some c` models
a truthy string whose `JSON.parse` outcome is `c`. -/
structure Env where
  accessKeyId : Option String
  accessKeySecret : Option String
  ecsInstancesJson : Option ConfigJson

/-- How one run of `handleSchedule` ended: the early `return` for missing
environment variables (line 256), the early `return` for unparsable
config JSON (line 264), the run-level `catch` (line 310), or normal
completion of the loop. -/
inductive RunOutcome
  | missingEnv
  | badJson
  | caughtError (e : RunErr)
  | completed
deriving DecidableEq

/-- A finished run: the signed requests it issued, in order, and how it
ended.  `handleSchedule` never lets an exception escape, so this is a
total description. -/
structure RunResult where
  calls : List ApiCall
  outcome : RunOutcome
deriving DecidableEq

/-- The accumulation step `trafficByRegion[region] += traffic / (1024 **
3)` on the insertion-ordered string-keyed object, including the
`if (!trafficByRegion[region]) trafficByRegion[region] = 0` initialisation
(with rational values the reset only ever rewrites `0` to `0`, so the
step adds `v` to the current value-or-`0`). -/
def bumpRegion (m : List (String × ℚ)) (r : String) (v : ℚ) : List (String × ℚ) :=
  match m with
  | [] => [(r, v)]
  | (r', x) :: rest => if r' = r then (r', x + v) :: rest else (r', x) :: bumpRegion rest r v

/-- The body of the aggregation loop of `getTrafficByRegion` (lines
332–343): read `BusinessRegionId` and `Traffic`, and when the region is
truthy accumulate `traffic / (1024 ** 3)` into the map. -/
def stepTraffic (m : List (String × ℚ)) (d : TrafficDetail) : List (String × ℚ) :=
  match d.businessRegionId with
  | some r => if r = "" then m else bumpRegion m r (jsTrafficBytes d.traffic / (1024 : ℚ) ^ 3)
  | none => m

/-- The aggregation loop of `getTrafficByRegion` (lines 329–345),
starting from the empty object. -/
def trafficByRegionOf (details : List TrafficDetail) : List (String × ℚ) :=
  details.foldl stepTraffic []

/-- Model of `getTrafficByRegion(env)`: issues the `ListCdtInternetTraffic` call
and, on success, aggregates `result.TrafficDetails || []` per region. -/
def getTrafficByRegion (o : Oracle) :
    List ApiCall × Except HttpErr (List (String × ℚ)) :=
  ([ApiCall.listTraffic], Except.map trafficByRegionOf o.traffic)

/-- Model of `getEcsStatus(env, instanceId, regionId)`: issues one
`DescribeInstances` call; a transport failure propagates, an empty
`Instances.Instance` array raises the not-found error, otherwise the
first instance's `Status` is returned. -/
def getEcsStatus (o : Oracle) (instanceId regionId : String) :
    List ApiCall × Except RunErr String :=
  ([ApiCall.describeInstances regionId instanceId],
    match o.describe regionId instanceId with
    | Except.error e => Except.error (RunErr.transport e)
    | Except.ok [] => Except.error (RunErr.notFound instanceId regionId)
    | Except.ok (i :: _) => Except.ok i.status)

/-- Model of `startEcsInstance(env, instanceId, regionId)`: one `StartInstances`
call; a transport failure propagates as an exception. -/
def startEcsInstance (o : Oracle) (instanceId regionId : String) :
    List ApiCall × Except RunErr Unit :=
  ([ApiCall.startInstances regionId instanceId],
    (o.start regionId instanceId).mapError RunErr.transport)

/-- Model of `stopEcsInstance(env, instanceId, regionId)`: one `StopInstances`
call (with `ForceStop: 'false'`); a transport failure propagates. -/
def stopEcsInstance (o : Oracle) (instanceId regionId : String) :
    List ApiCall × Except RunErr Unit :=
  ([ApiCall.stopInstances regionId instanceId],
    (o.stop regionId instanceId).mapError RunErr.transport)

/-- The body of the `for (const inst of instances)` loop (lines
275–307): validate the config (skip on falsy region/id or `NaN`
threshold), resolve `trafficByRegion[regionId] || 0`, fetch the status,
and run the control logic.  The result is the trace of signed requests
this iteration issued, paired with the exception it threw, if any
(`none` means the loop continues with the next instance). -/
def processInstance (o : Oracle) (tmap : List (String × ℚ)) (inst : InstCfg) :
    List ApiCall × Option RunErr :=
  match inst.region, inst.id, parseFloatThr inst.threshold with
  | some rid, some iid, some thr =>
    if rid = "" ∨ iid = "" then ([], none)
    else
      let regionTrafficGB : ℚ := ((tmap.lookup rid).getD 0)
      match getEcsStatus o iid rid with
      | (cs, Except.error e) => (cs, some e)
      | (cs, Except.ok instanceStatus) =>
        if regionTrafficGB < thr then
          if instanceStatus ≠ "Running" ∧ instanceStatus ≠ "Starting" then
            match startEcsInstance o iid rid with
            | (cs2, Except.error e) => (cs ++ cs2, some e)
            | (cs2, Except.ok _) => (cs ++ cs2, none)
          else (cs, none)
        else
          if instanceStatus ≠ "Stopped" ∧ instanceStatus ≠ "Stopping" then
            match stopEcsInstance o iid rid with
            | (cs2, Except.error e) => (cs ++ cs2, some e)
            | (cs2, Except.ok _) => (cs ++ cs2, none)
          else (cs, none)
  | _, _, _ => ([], none)

/-- The `for` loop itself.  The `try` wrapping the whole loop is outside
it, so the first uncaught exception aborts the loop: later instances are
not visited.  The result collects all calls issued before (and during)
the failing iteration. -/
def processLoop (o : Oracle) (tmap : List (String × ℚ)) :
    List InstCfg → List ApiCall × Option RunErr
  | [] => ([], none)
  | inst :: rest =>
    match processInstance o tmap inst with
    | (cs, some e) => (cs, some e)
    | (cs, none) =>
      match processLoop o tmap rest with
      | (cs2, r) => (cs ++ cs2, r)

/-- Model of `handleSchedule(env)` (lines 253–313): guard the three required
environment variables, parse `ECS_INSTANCES_JSON` (its own
`try`/`catch`), then inside the run-level `try` fetch the per-region
traffic and iterate the instances.  Any exception from the traffic call
or the loop lands in the run-level `catch`; nothing escapes. -/
def handleSchedule (env : Env) (o : Oracle) : RunResult :=
  if truthyStr env.accessKeyId = false ∨ truthyStr env.accessKeySecret = false ∨
      env.ecsInstancesJson.isNone then
    { calls := [], outcome := RunOutcome.missingEnv }
  else
    match env.ecsInstancesJson with
    | none => { calls := [], outcome := RunOutcome.missingEnv }
    | some ConfigJson.malformed => { calls := [], outcome := RunOutcome.badJson }
    | some (ConfigJson.arr instances) =>
      match getTrafficByRegion o with
      | (cs, Except.error e) =>
        { calls := cs, outcome := RunOutcome.caughtError (RunErr.transport e) }
      | (cs, Except.ok trafficByRegion) =>
        match processLoop o trafficByRegion instances with
        | (cs2, some e) => { calls := cs ++ cs2, outcome := RunOutcome.caughtError e }
        | (cs2, none) => { calls := cs ++ cs2, outcome := RunOutcome.completed }

/-- The `fetch` entry point (lines 247–250): run `handleSchedule` and
unconditionally answer `200 / "Executed successfully"`. -/
def fetchHandler (env : Env) (o : Oracle) : Nat × String :=
  let _run := handleSchedule env o
  (200, "Executed successfully")

/-- Whether a signed request is an actuation (a `StartInstances` or
`StopInstances` call) as opposed to a read. -/
def isActuation : ApiCall → Bool
  | ApiCall.startInstances _ _ => true
  | ApiCall.stopInstances _ _ => true
  | _ => false

/-- The records of a detail list carrying a given region identifier
(exact string match on `BusinessRegionId`). -/
def regionRecords (details : List TrafficDetail) (r : String) : List TrafficDetail :=
  details.filter (fun d => d.businessRegionId == some r)

/-- Whether some record of the list carries the given region id. -/
def hasRegion (details : List TrafficDetail) (r : String) : Bool :=
  details.any (fun d => d.businessRegionId == some r)

/-- Reference aggregate for the amended C4 statement: the value a region
receives is the sum of the JS-coerced byte counts of exactly the records
carrying it, divided by `1024 ^ 3`; a region gets an entry exactly when
it is non-empty and some record carries it. -/
def specRegionTraffic (details : List TrafficDetail) (r : String) : Option ℚ :=
  if r ≠ "" ∧ hasRegion details r then
    some (((regionRecords details r).map (fun d => jsTrafficBytes d.traffic)).sum / (1024 : ℚ) ^ 3)
  else none

/-- The byte count as claim C4 reads it: `0` when the field is absent or
non-numeric, the number itself otherwise. -/
def claimByteCount : JField → ℚ
  | JField.num q => q
  | _ => 0

/-- The per-region value claim C4 asserts the aggregator returns: the sum
of the claim-read byte counts of the records carrying the region, divided
by `1024 ^ 3`. -/
def claimRegionValue (details : List TrafficDetail) (r : String) : ℚ :=
  ((regionRecords details r).map (fun d => claimByteCount d.traffic)).sum / (1024 : ℚ) ^ 3

/-! ### Request-signing subsystem (lines 422–467) -/

/-- Uppercase hexadecimal digit, as produced by `encodeURIComponent`'s
escapes. -/
def hexUpper (d : Nat) : Char :=
  if d < 10 then Char.ofNat (48 + d) else Char.ofNat (55 + d)

/-- The bytes `encodeURIComponent` leaves unescaped: ASCII alphanumerics
and `- _ . ! ~ * ' ( )`. -/
def uriComponentAllowed (b : Nat) : Bool :=
  decide ((48 ≤ b ∧ b ≤ 57) ∨ (65 ≤ b ∧ b ≤ 90) ∨ (97 ≤ b ∧ b ≤ 122) ∨
    b = 45 ∨ b = 95 ∨ b = 46 ∨ b = 33 ∨ b = 126 ∨ b = 42 ∨ b = 39 ∨ b = 40 ∨ b = 41)

/-- The RFC 3986 unreserved bytes: ASCII alphanumerics and `- _ . ~`. -/
def rfc3986Unreserved (b : Nat) : Bool :=
  decide ((48 ≤ b ∧ b ≤ 57) ∨ (65 ≤ b ∧ b ≤ 90) ∨ (97 ≤ b ∧ b ≤ 122) ∨
    b = 45 ∨ b = 95 ∨ b = 46 ∨ b = 126)

/-- UTF-8 encoding of one code point, the byte stream both
`encodeURIComponent` and `TextEncoder` operate on. -/
def utf8EncodeCp (n : Nat) : List Nat :=
  if n < 128 then [n]
  else if n < 2048 then [192 + n / 64, 128 + n % 64]
  else if n < 65536 then [224 + n / 4096, 128 + n / 64 % 64, 128 + n % 64]
  else [240 + n / 262144, 128 + n / 4096 % 64, 128 + n / 64 % 64, 128 + n % 64]

/-- The UTF-8 bytes of a string. -/
def utf8Bytes (s : String) : List Nat :=
  s.data.flatMap (fun c => utf8EncodeCp c.toNat)

/-- One byte of `encodeURIComponent` output: kept verbatim when allowed,
otherwise escaped as `%` plus two uppercase hex digits. -/
def escapeURIByte (b : Nat) : List Char :=
  if uriComponentAllowed b then [Char.ofNat b] else ['%', hexUpper (b / 16), hexUpper (b % 16)]

/-- One byte encoded per the spec's reference rule (RFC 3986 with the
listed substitutions folded in): unreserved bytes kept, all others
escaped. -/
def specEscByte (b : Nat) : List Char :=
  if rfc3986Unreserved b then [Char.ofNat b] else ['%', hexUpper (b / 16), hexUpper (b % 16)]

/-- Model of `encodeURIComponent`, producing the character list of the
escaped string. -/
def encodeURIComponentJS (s : String) : List Char :=
  (utf8Bytes s).flatMap escapeURIByte

/-- Global single-character replacement, the semantics of
`.replace(/x/g, r)` for a one-character pattern (the replacement is not
rescanned). -/
def replaceChar (p : Char) (r : List Char) : List Char → List Char
  | [] => []
  | c :: cs => if c = p then r ++ replaceChar p r cs else c :: replaceChar p r cs

/-- Global replacement of the three-character pattern `%7E` by `~`, the
semantics of `.replace(/%7E/g, '~')`: scan left to right, skip past each
match, do not rescan the replacement. -/
def replace7E : List Char → List Char
  | c1 :: c2 :: c3 :: rest =>
    if c1 = '%' ∧ c2 = '7' ∧ c3 = 'E' then '~' :: replace7E rest
    else c1 :: replace7E (c2 :: c3 :: rest)
  | l => l

/-- The source's `percentEncode`: `encodeURIComponent` followed by the
six global replaces, in source order (`!`, `'`, `(`, `)`, `*`, `%7E`). -/
def percentEncode (s : String) : String :=
  String.mk (replace7E
    (replaceChar '*' ['%', '2', 'A']
      (replaceChar ')' ['%', '2', '9']
        (replaceChar '(' ['%', '2', '8']
          (replaceChar '\'' ['%', '2', '7']
            (replaceChar '!' ['%', '2', '1']
              (encodeURIComponentJS s)))))))

/-- The spec's reference encoding: RFC 3986 percent-encoding with the
substitutions `! ' ( ) *` escaped and `~` kept, applied byte by byte to
the UTF-8 stream. -/
def specPercentEncode (s : String) : String :=
  String.mk ((utf8Bytes s).flatMap specEscByte)

/-- Insert a pair into a key-sorted list, keeping keys in lexicographic
order. -/
def insertPair (p : String × String) : List (String × String) → List (String × String)
  | [] => [p]
  | q :: qs => if p.1 ≤ q.1 then p :: q :: qs else q :: insertPair p qs

/-- Sort parameters by raw key name, lexicographically — the effect of
`Object.keys(params).sort()` on the (duplicate-free) keys of a JS
object. -/
def sortByKey : List (String × String) → List (String × String)
  | [] => []
  | p :: ps => insertPair p (sortByKey ps)

/-- ASCII upper-casing, the effect of `method.toUpperCase()` on the
ASCII method strings used here. -/
def toUpperJS (s : String) : String := s.map Char.toUpper

/-- The canonicalized query string of `sign` (lines 423–426): sort keys,
percent-encode each key and value, join as `key=value` with `&`. -/
def canonicalizedQueryString (params : List (String × String)) : String :=
  String.intercalate "&"
    ((sortByKey params).map (fun kv => percentEncode kv.1 ++ "=" ++ percentEncode kv.2))

/-- The string-to-sign (lines 428–431). -/
def stringToSign (method : String) (params : List (String × String)) : String :=
  toUpperJS method ++ "&" ++ percentEncode "/" ++ "&" ++ percentEncode (canonicalizedQueryString params)

/-! SHA-1, HMAC and base64 over byte lists — the primitives behind
`crypto.subtle` HMAC-SHA1 and `btoa` in `hmacSha1` (lines 448–467).
Words are `Nat`s reduced modulo `2 ^ 32`. -/

/-- 32-bit left rotation. -/
def rotl32 (n x : Nat) : Nat := ((x <<< n) ||| (x >>> (32 - n))) % 2 ^ 32

/-- The SHA-1 round function. -/
def sha1F (t b c d : Nat) : Nat :=
  if t < 20 then (b &&& c) ||| ((b ^^^ 0xFFFFFFFF) &&& d)
  else if t < 40 then b ^^^ c ^^^ d
  else if t < 60 then (b &&& c) ||| (b &&& d) ||| (c &&& d)
  else b ^^^ c ^^^ d

/-- The SHA-1 round constants. -/
def sha1K (t : Nat) : Nat :=
  if t < 20 then 0x5A827999
  else if t < 40 then 0x6ED9EBA1
  else if t < 60 then 0x8F1BBCDC
  else 0xCA62C1D6

/-- Extend a 16-word block by `k` schedule words
(`w[t] = rotl1 (w[t-3] xor w[t-8] xor w[t-14] xor w[t-16])`). -/
def sha1Extend (w : List Nat) : Nat → List Nat
  | 0 => w
  | k + 1 =>
    let w' := sha1Extend w k
    let t := w'.length
    w' ++ [rotl32 1 ((w'.getD (t - 3) 0) ^^^ (w'.getD (t - 8) 0) ^^^
      (w'.getD (t - 14) 0) ^^^ (w'.getD (t - 16) 0))]

/-- One SHA-1 compression: 80 rounds over the extended schedule, then
add the working state back into the chaining state modulo `2 ^ 32`. -/
def sha1Compress (h : Nat × Nat × Nat × Nat × Nat) (ws : List Nat) :
    Nat × Nat × Nat × Nat × Nat :=
  let w80 := sha1Extend ws 64
  let st := (List.range 80).foldl
    (fun st t =>
      match st with
      | (a, b, c, d, e) =>
        ((rotl32 5 a + sha1F t b c d + e + sha1K t + w80.getD t 0) % 2 ^ 32,
          a, rotl32 30 b, c, d))
    h
  match h, st with
  | (h0, h1, h2, h3, h4), (a, b, c, d, e) =>
    ((h0 + a) % 2 ^ 32, (h1 + b) % 2 ^ 32, (h2 + c) % 2 ^ 32,
      (h3 + d) % 2 ^ 32, (h4 + e) % 2 ^ 32)

/-- Big-endian bytes of a 32-bit word. -/
def be32 (n : Nat) : List Nat :=
  [n / 2 ^ 24 % 256, n / 2 ^ 16 % 256, n / 2 ^ 8 % 256, n % 256]

/-- Big-endian bytes of a 64-bit length field. -/
def be64 (n : Nat) : List Nat := be32 (n / 2 ^ 32) ++ be32 n

/-- Group bytes into big-endian 32-bit words. -/
def bytesToWords : List Nat → List Nat
  | b0 :: b1 :: b2 :: b3 :: rest =>
    (b0 * 2 ^ 24 + b1 * 2 ^ 16 + b2 * 2 ^ 8 + b3) :: bytesToWords rest
  | _ => []

/-- Split a byte list into 64-byte blocks. -/
def chunks64 : List Nat → List (List Nat)
  | [] => []
  | b :: rest => ((b :: rest).take 64) :: chunks64 ((b :: rest).drop 64)
termination_by l => l.length
decreasing_by simp [List.length_drop]; omega

/-- SHA-1 padding: `0x80`, zeros to 56 mod 64, then the 64-bit
big-endian bit length. -/
def sha1Pad (msg : List Nat) : List Nat :=
  let z := (64 + 55 - msg.length % 64) % 64
  msg ++ [128] ++ List.replicate z 0 ++ be64 (8 * msg.length)

/-- SHA-1 of a byte list, as a 20-byte list. -/
def sha1 (msg : List Nat) : List Nat :=
  match (chunks64 (sha1Pad msg)).foldl
      (fun h blk => sha1Compress h (bytesToWords blk))
      (0x67452301, 0xEFCDAB89, 0x98BADCFE, 0x10325476, 0xC3D2E1F0) with
  | (h0, h1, h2, h3, h4) => be32 h0 ++ be32 h1 ++ be32 h2 ++ be32 h3 ++ be32 h4

/-- HMAC-SHA1 with a 64-byte block size. -/
def hmacSha1 (key msg : List Nat) : List Nat :=
  let k0 := if 64 < key.length then sha1 key else key
  let kp := k0 ++ List.replicate (64 - k0.length) 0
  sha1 ((kp.map (fun b => b ^^^ 0x5C)) ++ sha1 ((kp.map (fun b => b ^^^ 0x36)) ++ msg))

/-- One base64 output character. -/
def b64Char (n : Nat) : Char :=
  if n < 26 then Char.ofNat (65 + n)
  else if n < 52 then Char.ofNat (97 + (n - 26))
  else if n < 62 then Char.ofNat (48 + (n - 52))
  else if n = 62 then '+'
  else '/'

/-- Standard base64 of a byte list (the behaviour of `btoa` on the
byte-character string built from the HMAC output). -/
def base64Chars : List Nat → List Char
  | [] => []
  | [a] => [b64Char (a / 4), b64Char (a % 4 * 16), '=', '=']
  | [a, b] => [b64Char (a / 4), b64Char (a % 4 * 16 + b / 16), b64Char (b % 16 * 4), '=']
  | a :: b :: c :: rest =>
    b64Char (a / 4) :: b64Char (a % 4 * 16 + b / 16) ::
      b64Char (b % 16 * 4 + c / 64) :: b64Char (c % 64) :: base64Chars rest

/-- Base64 of a byte list as a string. -/
def base64 (bytes : List Nat) : String := String.mk (base64Chars bytes)

/-- The source's `sign(params, accessKeySecret, method)` (lines
422–436): base64 of the HMAC-SHA1, keyed with the secret followed by
`&`, of the string-to-sign. -/
def sign (params : List (String × String)) (accessKeySecret method : String) : String :=
  base64 (hmacSha1 (utf8Bytes (accessKeySecret ++ "&")) (utf8Bytes (stringToSign method params)))

/-- The spec's reference canonicalization: sort keys lexicographically
by raw name, encode each key and value with the reference encoding, join
with `&`. -/
def specCanonicalizedQueryString (params : List (String × String)) : String :=
  String.intercalate "&"
    ((sortByKey params).map (fun kv => specPercentEncode kv.1 ++ "=" ++ specPercentEncode kv.2))

/-- The spec's reference string-to-sign. -/
def specStringToSign (method : String) (params : List (String × String)) : String :=
  toUpperJS method ++ "&" ++ specPercentEncode "/" ++ "&" ++
    specPercentEncode (specCanonicalizedQueryString params)

/-- The spec's reference signature. -/
def specSign (params : List (String × String)) (accessKeySecret method : String) : String :=
  base64 (hmacSha1 (utf8Bytes (accessKeySecret ++ "&")) (utf8Bytes (specStringToSign method params)))

/-! ### Concrete fixtures for counterexamples and witnesses -/

/-- An oracle whose traffic list is empty and whose every instance
reports `Running`, with all actuations acknowledged. -/
def oRunning : Oracle where
  traffic := Except.ok []
  describe := fun _ _ => Except.ok [{ status := "Running" }]
  start := fun _ _ => Except.ok ()
  stop := fun _ _ => Except.ok ()

/-- An oracle whose lookup for region `r1` matches zero instances and
whose other lookups report `Running`. -/
def oNF : Oracle where
  traffic := Except.ok []
  describe := fun rid _ => if rid = "r1" then Except.ok [] else Except.ok [{ status := "Running" }]
  start := fun _ _ => Except.ok ()
  stop := fun _ _ => Except.ok ()

/-- First config of the C1 counterexample run: its instance lookup will
match zero instances. -/
def cfgNF : InstCfg := { region := some "r1", id := some "i-1", threshold := ThrVal.num 10 }

/-- Second, perfectly valid config of the C1 counterexample run. -/
def cfgTwo : InstCfg := { region := some "r2", id := some "i-2", threshold := ThrVal.num 10 }

/-- Environment of the C1 counterexample run: complete credentials and a
well-formed two-instance config array. -/
def envNF : Env where
  accessKeyId := some "ak"
  accessKeySecret := some "sk"
  ecsInstancesJson := some (ConfigJson.arr [cfgNF, cfgTwo])

/-- The shared-region scenario configs of the spec: same region, personal
thresholds 200 GB and 10 GB. -/
def cfgHkA : InstCfg := { region := some "cn-hongkong", id := some "i-a", threshold := ThrVal.num 200 }

/-- Second config of the shared-region scenario. -/
def cfgHkB : InstCfg := { region := some "cn-hongkong", id := some "i-b", threshold := ThrVal.num 10 }

/-- The shared traffic mapping of the scenario: 50 GB in `cn-hongkong`. -/
def tmapHK : List (String × ℚ) := [("cn-hongkong", 50)]

/-- A config with a negative threshold, for the C7 counterexample. -/
def cfgNeg : InstCfg := { region := some "r", id := some "i", threshold := ThrVal.num (-5) }

/-- A config with a `NaN` threshold, for the C7 witness. -/
def cfgBad : InstCfg := { region := some "r", id := some "i", threshold := ThrVal.nonNum }

/-- A valid config in region `r`, for the C2 witness. -/
def cfgW : InstCfg := { region := some "r", id := some "i", threshold := ThrVal.num 10 }

/-- A config whose region is absent from every traffic mapping used in
the C3 witness. -/
def cfgU : InstCfg := { region := some "u", id := some "i-u", threshold := ThrVal.num 10 }

/-- An environment missing the access-key id, for the C6 witness. -/
def envMissing : Env where
  accessKeyId := none
  accessKeySecret := some "sk"
  ecsInstancesJson := some (ConfigJson.arr [])

/-- The traffic detail record of the C4 counterexample: a truthy
non-numeric byte count. -/
def dBool : TrafficDetail := { businessRegionId := some "r", traffic := JField.bool true }

/-! ### Helper lemmas -/

/-- A config with a falsy region, a falsy id, or a `NaN` threshold is
skipped by the validation guard: no call, no exception. -/
lemma processInstance_skip (o : Oracle) (tmap : List (String × ℚ)) (inst : InstCfg)
    (h : truthyStr inst.region = false ∨ truthyStr inst.id = false ∨
      parseFloatThr inst.threshold = none) :
    processInstance o tmap inst = ([], none) := by
  rcases inst with ⟨reg, idf, th⟩
  rcases reg with _ | rid <;> rcases idf with _ | iid <;> rcases th with q | _ <;>
    simp_all [processInstance, truthyStr, parseFloatThr]


/-- Closed form of one loop iteration on a valid config (non-empty
region and id, numeric threshold). -/
lemma processInstance_valid (o : Oracle) (tmap : List (String × ℚ)) (rid iid : String) (q : ℚ)
    (h1 : ¬ rid = "") (h2 : ¬ iid = "") :
    processInstance o tmap ⟨some rid, some iid, ThrVal.num q⟩ =
      match o.describe rid iid with
      | Except.error e =>
        ([ApiCall.describeInstances rid iid], some (RunErr.transport e))
      | Except.ok [] =>
        ([ApiCall.describeInstances rid iid], some (RunErr.notFound iid rid))
      | Except.ok (i :: _) =>
        if (tmap.lookup rid).getD 0 < q then
          if i.status ≠ "Running" ∧ i.status ≠ "Starting" then
            match o.start rid iid with
            | Except.error e =>
              ([ApiCall.describeInstances rid iid, ApiCall.startInstances rid iid],
                some (RunErr.transport e))
            | Except.ok _ =>
              ([ApiCall.describeInstances rid iid, ApiCall.startInstances rid iid], none)
          else ([ApiCall.describeInstances rid iid], none)
        else
          if i.status ≠ "Stopped" ∧ i.status ≠ "Stopping" then
            match o.stop rid iid with
            | Except.error e =>
              ([ApiCall.describeInstances rid iid, ApiCall.stopInstances rid iid],
                some (RunErr.transport e))
            | Except.ok _ =>
              ([ApiCall.describeInstances rid iid, ApiCall.stopInstances rid iid], none)
          else ([ApiCall.describeInstances rid iid], none) := by
  simp only [processInstance, parseFloatThr, getEcsStatus]
  rw [if_neg (not_or.mpr ⟨h1, h2⟩)]
  cases o.describe rid iid with
  | error e => rfl
  | ok insts =>
    cases insts with
    | nil => rfl
    | cons i rest =>
      dsimp only
      by_cases hc : (tmap.lookup rid).getD 0 < q
      · by_cases hst : i.status ≠ "Running" ∧ i.status ≠ "Starting"
        · simp only [if_pos hc, if_pos hst, startEcsInstance]
          cases o.start rid iid <;> rfl
        · simp only [if_pos hc, if_neg hst]
      · by_cases hst : i.status ≠ "Stopped" ∧ i.status ≠ "Stopping"
        · simp only [if_neg hc, if_pos hst, stopEcsInstance]
          cases o.stop rid iid <;> rfl
        · simp only [if_neg hc, if_neg hst]

/-- The calls one valid iteration can issue: the status query alone, or
the status query followed by exactly one actuation whose direction is
fixed by the traffic/threshold comparison. -/
lemma processInstance_valid_calls (o : Oracle) (tmap : List (String × ℚ))
    (rid iid : String) (q : ℚ) (h1 : ¬ rid = "") (h2 : ¬ iid = "") :
    (processInstance o tmap ⟨some rid, some iid, ThrVal.num q⟩).1 =
        [ApiCall.describeInstances rid iid] ∨
      ((tmap.lookup rid).getD 0 < q ∧
        (processInstance o tmap ⟨some rid, some iid, ThrVal.num q⟩).1 =
          [ApiCall.describeInstances rid iid, ApiCall.startInstances rid iid] ∧
        ∃ i rest, o.describe rid iid = Except.ok (i :: rest) ∧
          i.status ≠ "Running" ∧ i.status ≠ "Starting") ∨
      (¬ (tmap.lookup rid).getD 0 < q ∧
        (processInstance o tmap ⟨some rid, some iid, ThrVal.num q⟩).1 =
          [ApiCall.describeInstances rid iid, ApiCall.stopInstances rid iid] ∧
        ∃ i rest, o.describe rid iid = Except.ok (i :: rest) ∧
          i.status ≠ "Stopped" ∧ i.status ≠ "Stopping") := by
  rw [processInstance_valid o tmap rid iid q h1 h2]
  cases hd : o.describe rid iid with
  | error e => exact Or.inl rfl
  | ok insts =>
    cases insts with
    | nil => exact Or.inl rfl
    | cons i rest =>
      by_cases hc : (tmap.lookup rid).getD 0 < q
      · by_cases hst : i.status ≠ "Running" ∧ i.status ≠ "Starting"
        · cases o.start rid iid <;>
            exact Or.inr (Or.inl ⟨hc, by simp [hc, hst], i, rest, rfl, hst.1, hst.2⟩)
        · simp only [if_pos hc, if_neg hst]
          left
          trivial
      · by_cases hst : i.status ≠ "Stopped" ∧ i.status ≠ "Stopping"
        · cases o.stop rid iid <;>
            exact Or.inr (Or.inr ⟨hc, by simp [hc, hst], i, rest, rfl, hst.1, hst.2⟩)
        · simp only [if_neg hc, if_neg hst]
          left
          trivial

/-! ### Claims -/

/-- C9: the manual HTTP trigger returns status 200 with body
`Executed successfully` for every environment and every remote
behaviour; `handleSchedule` is total (all exceptions are caught inside
it), so no internal failure can reach the `fetch` handler. -/
theorem c9_manual_trigger_always_succeeds (env : Env) (o : Oracle) :
    fetchHandler env o = (200, "Executed successfully") := rfl

/-- C10: one loop iteration issues at most one actuation call — the
start branch and the stop branch are mutually exclusive, so a configured
instance is never both started and stopped in a run. -/
theorem c10_at_most_one_actuation (o : Oracle) (tmap : List (String × ℚ)) (inst : InstCfg) :
    ((processInstance o tmap inst).1.countP isActuation) ≤ 1 := by
  rcases inst with ⟨reg, idf, th⟩
  rcases reg with _ | rid <;> rcases idf with _ | iid <;> rcases th with q | _ <;>
    try solve | simp [processInstance, parseFloatThr]
  by_cases hr : rid = ""
  · simp [processInstance, parseFloatThr, hr]
  by_cases hi : iid = ""
  · simp [processInstance, parseFloatThr, hi]
  rcases processInstance_valid_calls o tmap rid iid q hr hi with h | ⟨_, h, _⟩ | ⟨_, h, _⟩ <;>
    simp [h, List.countP_cons, isActuation]

/-- C1 (counterexample): with two well-formed configs, the first
instance failing its lookup (zero matches) aborts the whole loop: the
error is the not-found error for the first instance, and no call —
in particular no status query — is ever issued for the second configured
instance, which claim C1 says is still processed. -/
theorem c1_counterexample :
    (handleSchedule envNF oNF).outcome = RunOutcome.caughtError (RunErr.notFound "i-1" "r1") ∧
    (handleSchedule envNF oNF).calls = [ApiCall.listTraffic, ApiCall.describeInstances "r1" "i-1"] ∧
    ApiCall.describeInstances "r2" "i-2" ∉ (handleSchedule envNF oNF).calls := by
  decide

/-- C1 (amended): a failure while processing one instance is NOT
contained at the per-instance boundary: the exception aborts the loop —
the iteration's own calls are kept, but no later instance is visited —
and is only caught by the run-level handler. -/
theorem c1_failure_aborts_remaining_instances (o : Oracle) (tmap : List (String × ℚ))
    (inst : InstCfg) (rest : List InstCfg) (e : RunErr)
    (h : (processInstance o tmap inst).2 = some e) :
    processLoop o tmap (inst :: rest) = ((processInstance o tmap inst).1, some e) := by
  cases hp : processInstance o tmap inst with
  | mk cs r =>
    rw [hp] at h
    simp only at h
    subst h
    simp [processLoop, hp]

/-- C1 (amended) witness: the amended statement at the concrete failing
run of the counterexample. -/
theorem c1_failure_aborts_remaining_instances_witness :
    processLoop oNF [] [cfgNF, cfgTwo] =
      ((processInstance oNF [] cfgNF).1, some (RunErr.notFound "i-1" "r1")) :=
  c1_failure_aborts_remaining_instances oNF [] cfgNF [cfgTwo]
    (RunErr.notFound "i-1" "r1") (by decide)

/-- C6: a falsy access-key id, a falsy access-key secret, a falsy
config variable, or config JSON that fails to parse each abort
`handleSchedule` before any signed request: the call trace is empty and
the run ends in one of the two early returns. -/
theorem c6_config_errors_abort_before_network (env : Env) (o : Oracle)
    (h : truthyStr env.accessKeyId = false ∨ truthyStr env.accessKeySecret = false ∨
      env.ecsInstancesJson = none ∨ env.ecsInstancesJson = some ConfigJson.malformed) :
    (handleSchedule env o).calls = [] ∧
    ((handleSchedule env o).outcome = RunOutcome.missingEnv ∨
      (handleSchedule env o).outcome = RunOutcome.badJson) := by
  rcases h with h | h | h | h
  · simp [handleSchedule, h]
  · simp [handleSchedule, h]
  · simp [handleSchedule, h]
  · by_cases hk : truthyStr env.accessKeyId = false
    · simp [handleSchedule, hk]
    · by_cases hs : truthyStr env.accessKeySecret = false
      · simp [handleSchedule, hs]
      · simp [handleSchedule, hk, hs, h]

/-- C6 witness: the theorem at a concrete environment with a missing
access-key id. -/
theorem c6_config_errors_abort_before_network_witness :
    (handleSchedule envMissing oRunning).calls = [] :=
  (c6_config_errors_abort_before_network envMissing oRunning (Or.inl rfl)).1

/-- C7 (counterexample): a config whose threshold is the negative number
-5 — hence not a finite non-negative number — is NOT skipped: the run
issues its status query and even a stop actuation for it. -/
theorem c7_counterexample :
    cfgNeg.threshold = ThrVal.num (-5) ∧ ((-5 : ℚ) < 0) ∧
    (processInstance oRunning [] cfgNeg).1 =
      [ApiCall.describeInstances "r" "i", ApiCall.stopInstances "r" "i"] := by
  decide

/-- C7 (amended): the guard skips exactly falsy-region, falsy-id, or
`NaN`-threshold configs — such a config issues no call, raises nothing,
and the loop simply moves on to the remaining configs. -/
theorem c7_invalid_configs_skipped (o : Oracle) (tmap : List (String × ℚ)) (inst : InstCfg)
    (h : truthyStr inst.region = false ∨ truthyStr inst.id = false ∨
      parseFloatThr inst.threshold = none) :
    processInstance o tmap inst = ([], none) ∧
    ∀ rest, processLoop o tmap (inst :: rest) = processLoop o tmap rest := by
  have hs := processInstance_skip o tmap inst h
  refine ⟨hs, fun rest => ?_⟩
  cases hp : processLoop o tmap rest with
  | mk cs2 r => simp [processLoop, hs, hp]

/-- C7 (amended) witness: the amended statement at a concrete config
with a `NaN` threshold. -/
theorem c7_invalid_configs_skipped_witness :
    processInstance oRunning [] cfgBad = ([], none) :=
  (c7_invalid_configs_skipped oRunning [] cfgBad (Or.inr (Or.inr rfl))).1

/-- C2: on a valid config, if the region traffic is under the threshold
and the observed status is already `Running` or `Starting`, or the
traffic is at or over the threshold and the status is already `Stopped`
or `Stopping`, the iteration issues no actuation call. -/
theorem c2_idempotent_no_actuation (o : Oracle) (tmap : List (String × ℚ))
    (rid iid : String) (th : ThrVal) (thr : ℚ) (i0 : EcsInstance) (irest : List EcsInstance)
    (hr : rid ≠ "") (hi : iid ≠ "")
    (hthr : parseFloatThr th = some thr)
    (hdesc : o.describe rid iid = Except.ok (i0 :: irest))
    (hcase : ((tmap.lookup rid).getD 0 < thr ∧
        (i0.status = "Running" ∨ i0.status = "Starting")) ∨
      (thr ≤ (tmap.lookup rid).getD 0 ∧
        (i0.status = "Stopped" ∨ i0.status = "Stopping"))) :
    ∀ c ∈ (processInstance o tmap ⟨some rid, some iid, th⟩).1, isActuation c = false := by
  rcases th with q | _
  · simp only [parseFloatThr, Option.some.injEq] at hthr
    subst hthr
    rw [processInstance_valid o tmap rid iid q hr hi, hdesc]
    dsimp only
    rcases hcase with ⟨hlt, hst⟩ | ⟨hge, hst⟩
    · rw [if_pos hlt]
      rcases hst with h | h <;> simp [h, isActuation]
    · rw [if_neg (not_lt.mpr hge)]
      rcases hst with h | h <;> simp [h, isActuation]
  · simp [parseFloatThr] at hthr

/-- C2 witness: the theorem applied to a running instance under its
threshold shows the only call issued is the (non-actuating) status
query. -/
theorem c2_idempotent_no_actuation_witness :
    isActuation (ApiCall.describeInstances "r" "i") = false :=
  c2_idempotent_no_actuation oRunning [("r", (1 : ℚ))] "r" "i" (ThrVal.num 10) 10
    ⟨"Running"⟩ [] (by decide) (by decide) rfl rfl
    (Or.inl ⟨by decide, Or.inl rfl⟩)
    (ApiCall.describeInstances "r" "i") (by decide)

/-- C3: the effective traffic figure is the mapping's value for the
config's region with an absent region acting exactly like zero traffic
(an unseen region behaves like the empty mapping); a start is issued
only when that figure is strictly below the threshold and a stop only
when it is at or above it; and in the spec's shared-region scenario
(thresholds 200 and 10, shared figure 50, both instances running) the
200-threshold instance is left running while its 10-threshold sibling is
stopped — independent decisions from shared traffic. -/
theorem c3_decision_per_instance :
    (∀ (o : Oracle) (tmap : List (String × ℚ)) (rid : String) (idf : Option String) (th : ThrVal),
      tmap.lookup rid = none →
      processInstance o tmap ⟨some rid, idf, th⟩ = processInstance o [] ⟨some rid, idf, th⟩) ∧
    (∀ (o : Oracle) (tmap : List (String × ℚ)) (rid iid : String) (th : ThrVal) (thr : ℚ),
      parseFloatThr th = some thr →
      (ApiCall.startInstances rid iid ∈ (processInstance o tmap ⟨some rid, some iid, th⟩).1 →
        (tmap.lookup rid).getD 0 < thr) ∧
      (ApiCall.stopInstances rid iid ∈ (processInstance o tmap ⟨some rid, some iid, th⟩).1 →
        thr ≤ (tmap.lookup rid).getD 0)) ∧
    ((processInstance oRunning tmapHK cfgHkA).1 =
        [ApiCall.describeInstances "cn-hongkong" "i-a"] ∧
      (processInstance oRunning tmapHK cfgHkB).1 =
        [ApiCall.describeInstances "cn-hongkong" "i-b",
          ApiCall.stopInstances "cn-hongkong" "i-b"]) := by
  refine ⟨?_, ?_, by decide⟩
  · intro o tmap rid idf th h
    rcases idf with _ | iid
    · rcases th with q | _ <;> rfl
    rcases th with q | _
    · by_cases hr : rid = ""
      · simp [processInstance, parseFloatThr, hr]
      by_cases hi : iid = ""
      · simp [processInstance, parseFloatThr, hi]
      rw [processInstance_valid o tmap rid iid q hr hi,
        processInstance_valid o [] rid iid q hr hi, h]
      rfl
    · rfl
  · intro o tmap rid iid th thr hthr
    rcases th with q | _
    · simp only [parseFloatThr, Option.some.injEq] at hthr
      subst hthr
      by_cases hr : rid = ""
      · simp [processInstance, parseFloatThr, hr]
      by_cases hi : iid = ""
      · simp [processInstance, parseFloatThr, hi]
      rcases processInstance_valid_calls o tmap rid iid q hr hi with
        h | ⟨hc, h, _⟩ | ⟨hc, h, _⟩
      · constructor <;> (intro hm; rw [h] at hm; simp at hm)
      · refine ⟨fun _ => hc, fun hm => ?_⟩
        rw [h] at hm
        simp at hm
      · refine ⟨fun hm => ?_, fun _ => not_lt.mp hc⟩
        rw [h] at hm
        simp at hm
    · simp [parseFloatThr] at hthr

/-- C3 witness: the theorem's unseen-region clause at a concrete mapping
not containing the config's region. -/
theorem c3_decision_per_instance_witness :
    processInstance oRunning [("x", (5 : ℚ))] cfgU = processInstance oRunning [] cfgU :=
  c3_decision_per_instance.1 oRunning [("x", 5)] "u" (some "i-u") (ThrVal.num 10) (by decide)

/-- C8: the status reader fails with the not-found error exactly when
the describe response matches zero instances; a transport error is
reported as such (a distinct error constructor); and a successful result
is exactly the `Status` field of the first returned instance — no
default is ever substituted. -/
theorem c8_status_reader_errors (o : Oracle) (iid rid : String) :
    ((getEcsStatus o iid rid).2 = Except.error (RunErr.notFound iid rid) ↔
      o.describe rid iid = Except.ok []) ∧
    (∀ e, (getEcsStatus o iid rid).2 = Except.error (RunErr.transport e) ↔
      o.describe rid iid = Except.error e) ∧
    (∀ s, (getEcsStatus o iid rid).2 = Except.ok s ↔
      ∃ i irest, o.describe rid iid = Except.ok (i :: irest) ∧ s = i.status) ∧
    (∀ e iid2 rid2, RunErr.notFound iid2 rid2 ≠ RunErr.transport e) := by
  refine ⟨?_, ?_, ?_, by simp⟩ <;>
    [skip; intro e; intro s] <;>
    (cases hd : o.describe rid iid with
     | error e2 => simp [getEcsStatus, hd]
     | ok insts => cases insts <;> simp [getEcsStatus, hd, eq_comm])

/-- C8 witness: a concrete zero-match lookup produces exactly the
not-found error. -/
theorem c8_status_reader_errors_witness :
    (getEcsStatus oNF "i-x" "r1").2 = Except.error (RunErr.notFound "i-x" "r1") :=
  (c8_status_reader_errors oNF "i-x" "r1").1.mpr (by simp [oNF])

/-- Dividing each list element before summing equals dividing the sum. -/
lemma sum_map_div (l : List ℚ) (c : ℚ) :
    (l.map (fun x => x / c)).sum = l.sum / c := by
  induction l with
  | nil => simp
  | cons x xs ih => simp [ih, add_div]

/-- Lookup at the key itself after consing that key. -/
lemma lookup_cons_self (k : String) (x : ℚ) (l : List (String × ℚ)) :
    List.lookup k ((k, x) :: l) = some x := by
  simp [List.lookup_cons]

/-- Lookup at a different key skips the head pair. -/
lemma lookup_cons_ne (r k : String) (x : ℚ) (l : List (String × ℚ)) (h : ¬ r = k) :
    List.lookup r ((k, x) :: l) = List.lookup r l := by
  rw [List.lookup_cons, show (r == k) = false by simp [h]]

/-- Lookup after one accumulation step: the bumped key reads its old
value-or-zero plus the increment, every other key is untouched. -/
lemma bumpRegion_lookup (m : List (String × ℚ)) (r r' : String) (v : ℚ) :
    (bumpRegion m r v).lookup r' =
      if r' = r then some ((m.lookup r').getD 0 + v) else m.lookup r' := by
  induction m with
  | nil =>
    by_cases h : r' = r
    · subst h
      simp [bumpRegion, lookup_cons_self]
    · simp [bumpRegion, lookup_cons_ne r' r v [] h, h]
  | cons p rest ih =>
    obtain ⟨k, x⟩ := p
    by_cases hk : k = r
    · subst hk
      by_cases h : r' = k
      · subst h
        simp [bumpRegion, lookup_cons_self]
      · simp [bumpRegion, lookup_cons_ne _ _ _ _ h, h]
    · simp only [bumpRegion, if_neg hk]
      by_cases h : r' = k
      · subst h
        simp [lookup_cons_self, hk]
      · simp [lookup_cons_ne _ _ _ _ h, ih]

/-- Unfolding `hasRegion` over a cons. -/
lemma hasRegion_cons (d : TrafficDetail) (rest : List TrafficDetail) (r : String) :
    hasRegion (d :: rest) r = ((d.businessRegionId == some r) || hasRegion rest r) := rfl

/-- Unfolding `regionRecords` over a cons. -/
lemma regionRecords_cons (d : TrafficDetail) (rest : List TrafficDetail) (r : String) :
    regionRecords (d :: rest) r =
      if d.businessRegionId == some r then d :: regionRecords rest r
      else regionRecords rest r := by
  simp [regionRecords, List.filter_cons]

/-- A region no record carries collects no records. -/
lemma regionRecords_of_not_hasRegion (rest : List TrafficDetail) (r : String)
    (h : ¬ hasRegion rest r = true) :
    regionRecords rest r = [] := by
  rw [Bool.not_eq_true, hasRegion] at h
  rw [← Bool.not_eq_true, List.any_eq_true] at h
  push_neg at h
  exact List.filter_eq_nil_iff.mpr (by simpa using h)

/-- Lookup through the whole aggregation fold, for any starting map: a
non-empty region carried by some record reads its starting
value-or-zero plus all its records' converted contributions; every
other key reads the starting map. -/
lemma foldTraffic_lookup (details : List TrafficDetail) :
    ∀ (m : List (String × ℚ)) (r : String),
      ((details.foldl stepTraffic m).lookup r) =
        if r ≠ "" ∧ hasRegion details r then
          some ((m.lookup r).getD 0 +
            ((regionRecords details r).map
              (fun d => jsTrafficBytes d.traffic / (1024 : ℚ) ^ 3)).sum)
        else m.lookup r := by
  induction details with
  | nil => intro m r; simp [hasRegion]
  | cons d rest ih =>
    intro m r
    rw [List.foldl_cons, hasRegion_cons, regionRecords_cons]
    cases hbr : d.businessRegionId with
    | none =>
      rw [show stepTraffic m d = m by simp [stepTraffic, hbr], ih]
      rfl
    | some rg =>
      by_cases hrg : rg = ""
      · subst hrg
        rw [show stepTraffic m d = m by simp [stepTraffic, hbr], ih]
        by_cases hr : r = ""
        · subst hr
          simp
        · rw [show ((some "" : Option String) == some r) = false by simp [Ne.symm hr]]
          rfl
      · rw [show stepTraffic m d =
          bumpRegion m rg (jsTrafficBytes d.traffic / (1024 : ℚ) ^ 3) by
            simp [stepTraffic, hbr, hrg]]
        rw [ih, bumpRegion_lookup]
        by_cases hrrg : r = rg
        · subst hrrg
          rw [show ((some r : Option String) == some r) = true by simp]
          by_cases hrest : hasRegion rest r = true
          · simp [hrest, hrg, add_assoc]
          · simp [hrest, hrg, regionRecords_of_not_hasRegion rest r hrest]
        · rw [show ((some rg : Option String) == some r) = false by simp [Ne.symm hrrg]]
          simp only [if_neg hrrg, Bool.false_or]
          rfl

/-- C4 (counterexample): a record whose byte count is the truthy
non-numeric value `true` is NOT treated as 0 bytes: the aggregator
credits its region with `1 / 1024³` GB (the JS coercion of `true`),
a non-zero value, where the claim's reading prescribes 0. -/
theorem c4_counterexample :
    (trafficByRegionOf [dBool]).lookup "r" = some ((1 : ℚ) / 1024 ^ 3) ∧
    claimRegionValue [dBool] "r" = 0 ∧
    ((1 : ℚ) / 1024 ^ 3) ≠ 0 := by
  refine ⟨?_, ?_, by norm_num⟩
  · simp [trafficByRegionOf, stepTraffic, dBool, bumpRegion, jsTrafficBytes,
      lookup_cons_self]
  · simp [claimRegionValue, regionRecords, dBool, claimByteCount]

/-- C4 (amended): the aggregator maps exactly the non-empty regions
carried by some record, each to the sum of its records' JS-coerced byte
counts (0 for falsy values — absent, `null`, `false`, `0`; the numeric
coercion otherwise) divided by `1024 ^ 3`; records without a region
contribute no entry, and the empty record list yields the empty
mapping. -/
theorem c4_aggregation :
    (∀ (details : List TrafficDetail) (r : String),
      (trafficByRegionOf details).lookup r = specRegionTraffic details r) ∧
    trafficByRegionOf [] = [] := by
  refine ⟨fun details r => ?_, rfl⟩
  rw [trafficByRegionOf, foldTraffic_lookup details [] r]
  by_cases h : r ≠ "" ∧ hasRegion details r
  · rw [if_pos h]
    rw [show ((regionRecords details r).map
        (fun d => jsTrafficBytes d.traffic / (1024 : ℚ) ^ 3)) =
        (((regionRecords details r).map (fun d => jsTrafficBytes d.traffic)).map
          (fun x => x / (1024 : ℚ) ^ 3)) by rw [List.map_map]; rfl]
    rw [sum_map_div]
    simp [specRegionTraffic, h]
  · rw [if_neg h]
    simp [specRegionTraffic, h]

set_option maxRecDepth 2000

/-- Per-byte agreement of the source encoding pipeline with the
reference encoding: applying the five character replaces to one byte's
`encodeURIComponent` output yields exactly the reference byte
encoding. -/
lemma sourceChain_byte : ∀ b : Nat, b < 256 →
    replaceChar '*' ['%', '2', 'A'] (replaceChar ')' ['%', '2', '9']
      (replaceChar '(' ['%', '2', '8'] (replaceChar '\'' ['%', '2', '7']
        (replaceChar '!' ['%', '2', '1'] (escapeURIByte b))))) =
    specEscByte b := by decide

/-- A byte kept verbatim by the reference encoding is never the percent
sign. -/
lemma unreserved_ne_percent : ∀ b : Nat, b < 256 → rfc3986Unreserved b = true →
    Char.ofNat b ≠ '%' := by decide

/-- The hex digits of an escaped byte are not `%`, and never spell the
pair `7E` (tilde, `0x7E`, is unreserved and so never escaped). -/
lemma hexEscape_facts : ∀ b : Nat, b < 256 → rfc3986Unreserved b = false →
    (hexUpper (b / 16) ≠ '%' ∧ hexUpper (b % 16) ≠ '%' ∧
      ¬(hexUpper (b / 16) = '7' ∧ hexUpper (b % 16) = 'E')) := by decide

/-- Single-character replacement distributes over append. -/
lemma replaceChar_append (p : Char) (r a b : List Char) :
    replaceChar p r (a ++ b) = replaceChar p r a ++ replaceChar p r b := by
  induction a with
  | nil => rfl
  | cons c cs ih => by_cases h : c = p <;> simp [replaceChar, h, ih]

/-- The five-replace chain turns the `encodeURIComponent` output of a
byte stream into the reference encoding of that stream. -/
lemma sourceChain_flatMap (bs : List Nat) (h : ∀ b ∈ bs, b < 256) :
    replaceChar '*' ['%', '2', 'A'] (replaceChar ')' ['%', '2', '9']
      (replaceChar '(' ['%', '2', '8'] (replaceChar '\'' ['%', '2', '7']
        (replaceChar '!' ['%', '2', '1'] (bs.flatMap escapeURIByte))))) =
    bs.flatMap specEscByte := by
  induction bs with
  | nil => rfl
  | cons b rest ih =>
    rw [List.flatMap_cons, List.flatMap_cons, replaceChar_append, replaceChar_append,
      replaceChar_append, replaceChar_append, replaceChar_append,
      sourceChain_byte b (h b (List.mem_cons_self b rest)),
      ih (fun x hx => h x (List.mem_cons_of_mem b hx))]

/-- The replace passes over a head character that is not `%`. -/
lemma replace7E_cons_ne (c : Char) (l : List Char) (h : c ≠ '%') :
    replace7E (c :: l) = c :: replace7E l := by
  cases l with
  | nil => rfl
  | cons c2 l2 =>
    cases l2 with
    | nil => rfl
    | cons c3 l3 => simp [replace7E, h]

/-- The replace passes over a hex escape that does not spell `%7E`. -/
lemma replace7E_esc (h1 h2 : Char) (l : List Char)
    (ha : h1 ≠ '%') (hb : h2 ≠ '%') (hc : ¬(h1 = '7' ∧ h2 = 'E')) :
    replace7E ('%' :: h1 :: h2 :: l) = '%' :: h1 :: h2 :: replace7E l := by
  rw [show replace7E ('%' :: h1 :: h2 :: l) = '%' :: replace7E (h1 :: h2 :: l) by
    simp [replace7E, hc]]
  rw [replace7E_cons_ne h1 _ ha, replace7E_cons_ne h2 _ hb]

/-- The `%7E → ~` replace is inert on reference-encoded output: the
escape `%7E` would stand for the tilde, which is unreserved and hence
never escaped. -/
lemma replace7E_flatMap (bs : List Nat) (h : ∀ b ∈ bs, b < 256) :
    replace7E (bs.flatMap specEscByte) = bs.flatMap specEscByte := by
  induction bs with
  | nil => rfl
  | cons b rest ih =>
    have hb : b < 256 := h b (List.mem_cons_self b rest)
    have hrest : ∀ x ∈ rest, x < 256 := fun x hx => h x (List.mem_cons_of_mem b hx)
    rw [List.flatMap_cons]
    cases hun : rfc3986Unreserved b with
    | true =>
      rw [show specEscByte b = [Char.ofNat b] from by simp [specEscByte, hun],
        List.singleton_append, replace7E_cons_ne _ _ (unreserved_ne_percent b hb hun),
        ih hrest]
    | false =>
      obtain ⟨ha, hb2, hc⟩ := hexEscape_facts b hb hun
      rw [show specEscByte b = ['%', hexUpper (b / 16), hexUpper (b % 16)] from by
          simp [specEscByte, hun],
        List.cons_append, List.cons_append, List.cons_append, List.nil_append,
        replace7E_esc _ _ _ ha hb2 hc, ih hrest]

/-- Every code point is below the Unicode bound. -/
lemma char_toNat_lt (c : Char) : c.toNat < 1114112 := by
  have h := c.valid
  rcases h with h | ⟨h1, h2⟩ <;> simp [Char.toNat] <;> omega

/-- UTF-8 encoding yields bytes. -/
lemma utf8EncodeCp_lt (n : Nat) (hn : n < 1114112) : ∀ b ∈ utf8EncodeCp n, b < 256 := by
  intro b hb
  by_cases h1 : n < 128
  · simp [utf8EncodeCp, h1] at hb
    omega
  · by_cases h2 : n < 2048
    · simp [utf8EncodeCp, h1, h2] at hb
      rcases hb with rfl | rfl <;> omega
    · by_cases h3 : n < 65536
      · simp [utf8EncodeCp, h1, h2, h3] at hb
        rcases hb with rfl | rfl | rfl <;> omega
      · simp [utf8EncodeCp, h1, h2, h3] at hb
        rcases hb with rfl | rfl | rfl | rfl <;> omega

/-- The UTF-8 stream of a string consists of bytes. -/
lemma utf8Bytes_lt (s : String) : ∀ b ∈ utf8Bytes s, b < 256 := by
  intro b hb
  rw [utf8Bytes, List.mem_flatMap] at hb
  obtain ⟨c, _, hbc⟩ := hb
  exact utf8EncodeCp_lt c.toNat (char_toNat_lt c) b hbc

/-- The source `percentEncode` coincides with the reference RFC 3986
encoding with the spec's substitutions, on every string. -/
lemma percentEncode_eq_spec (s : String) : percentEncode s = specPercentEncode s := by
  unfold percentEncode specPercentEncode encodeURIComponentJS
  rw [sourceChain_flatMap (utf8Bytes s) (utf8Bytes_lt s),
    replace7E_flatMap (utf8Bytes s) (utf8Bytes_lt s)]

/-- C5: for every parameter mapping, secret and method, the source's
signature equals the reference signature — base64 of HMAC-SHA1 keyed
with `secret + "&"` over `METHOD & percentEncode("/") &
percentEncode(Q)` with `Q` the key-sorted, reference-encoded
`key=value` join.  Both sides are pure functions of their arguments, so
the signature is deterministic as claimed. -/
theorem c5_sign_matches_reference (params : List (String × String)) (secret method : String) :
    sign params secret method = specSign params secret method := by
  have hpe : percentEncode = specPercentEncode := funext percentEncode_eq_spec
  unfold sign specSign stringToSign specStringToSign canonicalizedQueryString
    specCanonicalizedQueryString
  rw [hpe]
